import Mathlib

/-!
Shallow embedding of the core of the two-variable linear-programming
graphical solver: the `Constraint` / `LPProblem` data model and the
`Calculator` operations, translated from `src/models/lp_problem.py` and
`src/modules/calc_module.py`.  Real arithmetic of the source is modelled
exactly over `ℚ` (the gradient step, whose source uses a square root, is
modelled over `ℝ`).  The mutable corner-point cache of `LPProblem` is
modelled by explicit state passing: the stateful methods return the
updated problem alongside their result.
-/

namespace LPSolver

/-- The numeric tolerance `1e-10` used throughout the source. -/
def tol : ℚ := 1 / 10000000000

/-- Python's `abs` on the exact rationals of the model (written with `if`
so that concrete instances evaluate; `ratAbs_eq_abs` below identifies it
with the mathematical absolute value). -/
def ratAbs (q : ℚ) : ℚ := if q < 0 then -q else q

/-- `ConstraintType` from `lp_problem.py`: the kind of a constraint. -/
inductive ConstraintType where
  | LESS_EQUAL
  | EQUAL
  | GREATER_EQUAL
deriving DecidableEq, Repr

export ConstraintType (LESS_EQUAL EQUAL GREATER_EQUAL)

/-- A constraint `a1*x1 + a2*x2 {≤,=,≥} b` (class `Constraint`). -/
structure Constraint where
  a1 : ℚ
  a2 : ℚ
  b : ℚ
  constraint_type : ConstraintType
deriving DecidableEq, Repr

/-- `Constraint.is_satisfied`: whether `(x1, x2)` satisfies the constraint,
with tolerance `eps` (the source default is `1e-10`). -/
def Constraint.is_satisfied (c : Constraint) (x1 x2 eps : ℚ) : Bool :=
  let left_side := c.a1 * x1 + c.a2 * x2
  match c.constraint_type with
  | LESS_EQUAL => left_side ≤ c.b + eps
  | EQUAL => ratAbs (left_side - c.b) ≤ eps
  | GREATER_EQUAL => left_side ≥ c.b - eps

/-- A corner point `(x1, x2, [indices])` as stored by the source. -/
abbrev CornerPoint : Type := ℚ × ℚ × List ℕ

/-- Class `LPProblem`: objective coefficients, ordered constraint list and
the cached corner-point sequence. -/
structure LPProblem where
  c1 : ℚ
  c2 : ℚ
  constraints : List Constraint
  corner_points : List CornerPoint
deriving DecidableEq, Repr

/-- `LPProblem.add_constraint`: appends a constraint. -/
def LPProblem.add_constraint (p : LPProblem) (a1 a2 b : ℚ)
    (constraint_type : ConstraintType) : LPProblem :=
  { p with constraints := p.constraints ++ [⟨a1, a2, b, constraint_type⟩] }

/-- `LPProblem.remove_constraint`: removes the constraint at position
`index` when `0 <= index < len(constraints)`, otherwise does nothing.
The index is an arbitrary integer, as in Python. -/
def LPProblem.remove_constraint (p : LPProblem) (index : ℤ) : LPProblem :=
  if 0 ≤ index ∧ index < p.constraints.length then
    { p with constraints := p.constraints.eraseIdx index.toNat }
  else
    p

/-- `LPProblem.objective_value`: `c1*x1 + c2*x2`. -/
def LPProblem.objective_value (p : LPProblem) (x1 x2 : ℚ) : ℚ :=
  p.c1 * x1 + p.c2 * x2

/-- `LPProblem.is_feasible`: all constraints satisfied (default tolerance). -/
def LPProblem.is_feasible (p : LPProblem) (x1 x2 : ℚ) : Bool :=
  p.constraints.all fun c => c.is_satisfied x1 x2 tol

/-- A default constraint; only used to state out-of-range list reads, which
the source never performs. -/
def dfltConstraint : Constraint := ⟨0, 0, 0, LESS_EQUAL⟩

/-- Determinant of the 2×2 system formed by two constraints' coefficient
rows, as computed by `np.linalg.det` in exact arithmetic. -/
def det2 (c d : Constraint) : ℚ :=
  c.a1 * d.a2 - c.a2 * d.a1

/-- The unique solution of the 2×2 system `[[c.a1,c.a2],[d.a1,d.a2]]·x =
[c.b,d.b]` (what `np.linalg.solve` returns, in exact arithmetic, when the
determinant is nonzero). -/
def solve2 (c d : Constraint) : ℚ × ℚ :=
  ((c.b * d.a2 - d.b * c.a2) / det2 c d,
   (c.a1 * d.b - d.a1 * c.b) / det2 c d)

/-- The body of `find_corner_points` for one pair `(i, j)`: `none` when the
pair is skipped (determinant of magnitude `< 1e-10`, or intersection point
infeasible), otherwise the corner point `(x1, x2, [i, j])`. -/
def pair_point (p : LPProblem) (i j : ℕ) : Option CornerPoint :=
  let constr1 := p.constraints.getD i dfltConstraint
  let constr2 := p.constraints.getD j dfltConstraint
  if ratAbs (det2 constr1 constr2) < tol then
    none
  else
    let s := solve2 constr1 constr2
    if p.is_feasible s.1 s.2 then some (s.1, s.2, [i, j]) else none

/-- The accumulation step of the `find_corner_points` loop: a skipped
pair (`continue`) leaves the list alone, a kept point is appended. -/
def append_opt {α : Type} (acc : List α) (o : Option α) : List α :=
  match o with
  | none => acc
  | some pt => acc ++ [pt]

/-- The double loop of `find_corner_points`: `for i in range(n): for j in
range(i+1, n): ...`, accumulating kept points by appending. -/
def find_corner_points_list (p : LPProblem) : List CornerPoint :=
  let n := p.constraints.length
  (List.range n).foldl
    (fun acc i =>
      (List.range' (i + 1) (n - (i + 1))).foldl
        (fun acc2 j => append_opt acc2 (pair_point p i j))
        acc)
    []

/-- `LPProblem.find_corner_points`: returns the corner-point list and, as
the modelled side effect, the problem with its cache overwritten by it. -/
def LPProblem.find_corner_points (p : LPProblem) :
    List CornerPoint × LPProblem :=
  let l := find_corner_points_list p
  (l, { p with corner_points := l })

/-- All pairs `(i, j)` with `i < j < n`, in increasing lexicographic
order.  Stated from the spec's enumeration rule, to be compared with the
source's double loop. -/
def lexPairs (n : ℕ) : List (ℕ × ℕ) :=
  (List.range n).flatMap fun i =>
    (List.range' (i + 1) (n - (i + 1))).map fun j => (i, j)

/-- Spec-level description of `find_corner_points`: filter-map the solver
over the lexicographically ordered pair list. -/
def corner_points_spec (p : LPProblem) : List CornerPoint :=
  (lexPairs p.constraints.length).filterMap fun ij => pair_point p ij.1 ij.2

/-- `LPProblem.to_dict` produces, and `from_dict` consumes, constraint
records whose kind is a glyph string. -/
structure ConstraintDict where
  a1 : ℚ
  a2 : ℚ
  b : ℚ
  type : String
deriving DecidableEq, Repr

/-- The dictionary produced by `LPProblem.to_dict`. -/
structure ProblemDict where
  c1 : ℚ
  c2 : ℚ
  constraints : List ConstraintDict
deriving DecidableEq, Repr

/-- The `.value` glyph of each `ConstraintType`. -/
def ConstraintType.value : ConstraintType → String
  | LESS_EQUAL => "≤"
  | EQUAL => "="
  | GREATER_EQUAL => "≥"

/-- `LPProblem.to_dict`: serializes the problem. -/
def LPProblem.to_dict (p : LPProblem) : ProblemDict :=
  { c1 := p.c1
    c2 := p.c2
    constraints := p.constraints.map fun c =>
      { a1 := c.a1, a2 := c.a2, b := c.b, type := c.constraint_type.value } }

/-- The glyph-to-kind branch of `from_dict`: `"≤"` and `"="` map to their
kinds and every other string falls to `GREATER_EQUAL`. -/
def typeOfGlyph (s : String) : ConstraintType :=
  if s = "≤" then LESS_EQUAL
  else if s = "=" then EQUAL
  else GREATER_EQUAL

/-- `LPProblem.from_dict`: builds a fresh problem and adds each serialized
constraint in order. -/
def LPProblem.from_dict (data : ProblemDict) : LPProblem :=
  data.constraints.foldl
    (fun problem cd =>
      problem.add_constraint cd.a1 cd.a2 cd.b (typeOfGlyph cd.type))
    ⟨data.c1, data.c2, [], []⟩

/-- Python's `max(corner_points, key=objective_value)`: fold keeping the
current best and replacing it only on a strictly larger key, so the first
maximal element wins. -/
def python_max (obj : CornerPoint → ℚ) (c : CornerPoint)
    (l : List CornerPoint) : CornerPoint :=
  l.foldl (fun best q => if obj q > obj best then q else best) c

/-- `Calculator.find_optimal_solution`: recomputes corner points (updating
the problem's cache), returns `none` on an empty list and otherwise the
point maximizing the objective, with ties broken by enumeration order. -/
def find_optimal_solution (p : LPProblem) :
    Option (ℚ × ℚ × ℚ × List ℕ) × LPProblem :=
  let r := p.find_corner_points
  match r.1 with
  | [] => (none, r.2)
  | c :: rest =>
    let best := python_max (fun q => p.objective_value q.1 q.2.1) c rest
    (some (best.1, best.2.1, p.objective_value best.1 best.2.1, best.2.2), r.2)

/-- One constraint's contribution to the `x1` upper-bound flag of
`is_bounded` (axis-aligned scan, per the sign/kind table). -/
def x1_upper_flag (c : Constraint) : Bool :=
  ratAbs c.a2 < tol &&
    ((c.a1 > 0 && c.constraint_type = LESS_EQUAL) ||
     (c.a1 < 0 && c.constraint_type = GREATER_EQUAL))

/-- One constraint's contribution to the `x1` lower-bound flag. -/
def x1_lower_flag (c : Constraint) : Bool :=
  ratAbs c.a2 < tol &&
    ((c.a1 > 0 && c.constraint_type = GREATER_EQUAL) ||
     (c.a1 < 0 && c.constraint_type = LESS_EQUAL))

/-- One constraint's contribution to the `x2` upper-bound flag. -/
def x2_upper_flag (c : Constraint) : Bool :=
  ratAbs c.a1 < tol &&
    ((c.a2 > 0 && c.constraint_type = LESS_EQUAL) ||
     (c.a2 < 0 && c.constraint_type = GREATER_EQUAL))

/-- One constraint's contribution to the `x2` lower-bound flag. -/
def x2_lower_flag (c : Constraint) : Bool :=
  ratAbs c.a1 < tol &&
    ((c.a2 > 0 && c.constraint_type = GREATER_EQUAL) ||
     (c.a2 < 0 && c.constraint_type = LESS_EQUAL))

/-- The first `if` block of the `is_bounded` loop body (`x1` bounds),
updating the flag state `(x1_lower, x1_upper, x2_lower, x2_upper)`. -/
def x1_block (s : Bool × Bool × Bool × Bool) (c : Constraint) :
    Bool × Bool × Bool × Bool :=
  if ratAbs c.a2 < tol then
    if c.a1 > 0 then
      if c.constraint_type = LESS_EQUAL then (s.1, true, s.2.2.1, s.2.2.2)
      else if c.constraint_type = GREATER_EQUAL then
        (true, s.2.1, s.2.2.1, s.2.2.2)
      else s
    else if c.a1 < 0 then
      if c.constraint_type = LESS_EQUAL then (true, s.2.1, s.2.2.1, s.2.2.2)
      else if c.constraint_type = GREATER_EQUAL then
        (s.1, true, s.2.2.1, s.2.2.2)
      else s
    else s
  else s

/-- The second `if` block of the `is_bounded` loop body (`x2` bounds). -/
def x2_block (s1 : Bool × Bool × Bool × Bool) (c : Constraint) :
    Bool × Bool × Bool × Bool :=
  if ratAbs c.a1 < tol then
    if c.a2 > 0 then
      if c.constraint_type = LESS_EQUAL then (s1.1, s1.2.1, s1.2.2.1, true)
      else if c.constraint_type = GREATER_EQUAL then
        (s1.1, s1.2.1, true, s1.2.2.2)
      else s1
    else if c.a2 < 0 then
      if c.constraint_type = LESS_EQUAL then (s1.1, s1.2.1, true, s1.2.2.2)
      else if c.constraint_type = GREATER_EQUAL then
        (s1.1, s1.2.1, s1.2.2.1, true)
      else s1
    else s1
  else s1

/-- The loop body of `Calculator.is_bounded` for one constraint: the `x1`
check followed by the `x2` check, exactly as in the source. -/
def bound_step (s : Bool × Bool × Bool × Bool) (c : Constraint) :
    Bool × Bool × Bool × Bool :=
  x2_block (x1_block s c) c

/-- `Calculator.is_bounded`: scans all constraints accumulating the four
bound flags and requires all of them. -/
def is_bounded (p : LPProblem) : Bool :=
  let s := p.constraints.foldl bound_step (false, false, false, false)
  s.1 && s.2.1 && s.2.2.1 && s.2.2.2

/-- Spec-level reading of `is_bounded`: each axis has at least one lower
and one upper bound among the axis-aligned constraints. -/
def is_bounded_spec (p : LPProblem) : Bool :=
  p.constraints.any x1_lower_flag && p.constraints.any x1_upper_flag &&
  p.constraints.any x2_lower_flag && p.constraints.any x2_upper_flag

/-- The (possibly negated) gradient component used by
`move_in_gradient_direction`, over `ℝ`. -/
def gradComp (c : ℚ) (anti_gradient : Bool) : ℝ :=
  if anti_gradient then -(c : ℝ) else (c : ℝ)

/-- The Euclidean norm of the (possibly negated) gradient, `(g1² + g2²)**0.5`. -/
noncomputable def gradNorm (p : LPProblem) (anti_gradient : Bool) : ℝ :=
  Real.sqrt (gradComp p.c1 anti_gradient ^ 2 + gradComp p.c2 anti_gradient ^ 2)

/-- `LPProblem.move_in_gradient_direction`: the input point when the
gradient norm is below `1e-10`, otherwise a `step`-sized move along the
unit (anti)gradient. -/
noncomputable def LPProblem.move_in_gradient_direction (p : LPProblem)
    (x1 x2 step : ℝ) (anti_gradient : Bool) : ℝ × ℝ :=
  let grad_x1 := gradComp p.c1 anti_gradient
  let grad_x2 := gradComp p.c2 anti_gradient
  let norm := gradNorm p anti_gradient
  if norm < (tol : ℝ) then (x1, x2)
  else (x1 + step * (grad_x1 / norm), x2 + step * (grad_x2 / norm))

/-- The test problem of §8: `x1 ≤ 4`, `x2 ≤ 4`, `x1 ≥ 0`, `x2 ≥ 0`,
objective `max 2*x1 + 3*x2` (a box region). -/
def boxProblem : LPProblem :=
  ⟨2, 3,
   [⟨1, 0, 4, LESS_EQUAL⟩, ⟨0, 1, 4, LESS_EQUAL⟩,
    ⟨1, 0, 0, GREATER_EQUAL⟩, ⟨0, 1, 0, GREATER_EQUAL⟩], []⟩

/-- A triangular region from two non-axis-aligned constraints plus one
axis constraint: `x1 + x2 ≤ 4`, `x2 - x1 ≤ 0`, `x2 ≥ 0`. -/
def triProblem : LPProblem :=
  ⟨1, 1,
   [⟨1, 1, 4, LESS_EQUAL⟩, ⟨-1, 1, 0, LESS_EQUAL⟩,
    ⟨0, 1, 0, GREATER_EQUAL⟩], []⟩

/-- A problem whose region is confined only by the equality constraints
`x1 = 5` and `x2 = 3`. -/
def eqOnlyProblem : LPProblem :=
  ⟨1, 1, [⟨1, 0, 5, EQUAL⟩, ⟨0, 1, 3, EQUAL⟩], []⟩

/-- A two-constraint problem (`x1 ≤ 1`, `x2 ≤ 1`) with one corner. -/
def miniProblem : LPProblem :=
  ⟨1, 1, [⟨1, 0, 1, LESS_EQUAL⟩, ⟨0, 1, 1, LESS_EQUAL⟩], []⟩

/-- A problem with zero objective gradient. -/
def zeroGradProblem : LPProblem := ⟨0, 0, [], []⟩

/-- A problem with unit objective gradient `(1, 0)`. -/
def unitGradProblem : LPProblem := ⟨1, 0, [], []⟩

/-! ## Basic facts about the embedding -/

/-- `ratAbs` is the mathematical absolute value on `ℚ`. -/
lemma ratAbs_eq_abs (q : ℚ) : ratAbs q = |q| := by
  unfold ratAbs
  rcases lt_or_ge q 0 with h | h
  · rw [if_pos h, abs_of_neg h]
  · rw [if_neg (not_lt.mpr h), abs_of_nonneg h]

/-! ## Serialization round trip -/

/-- Decoding the glyph of a kind recovers the kind. -/
lemma typeOfGlyph_value (k : ConstraintType) : typeOfGlyph k.value = k := by
  cases k <;> decide

/-- Unfolding the `from_dict` fold: it appends the decoded constraints. -/
lemma from_dict_foldl (l : List ConstraintDict) (q : LPProblem) :
    l.foldl
      (fun problem cd =>
        problem.add_constraint cd.a1 cd.a2 cd.b (typeOfGlyph cd.type)) q =
    { q with
      constraints := q.constraints ++
        l.map fun cd => ⟨cd.a1, cd.a2, cd.b, typeOfGlyph cd.type⟩ } := by
  induction l generalizing q with
  | nil => simp
  | cons cd l ih =>
    rw [List.foldl_cons, ih]
    simp [LPProblem.add_constraint, List.append_assoc]

/-- C7: for every Problem, `from_dict (to_dict P)` has the same `c1` and
`c2` as `P` and the same ordered list of `(a1, a2, b, kind)` constraints. -/
theorem round_trip_preserves_problem (p : LPProblem) :
    (LPProblem.from_dict p.to_dict).c1 = p.c1 ∧
    (LPProblem.from_dict p.to_dict).c2 = p.c2 ∧
    (LPProblem.from_dict p.to_dict).constraints = p.constraints := by
  unfold LPProblem.from_dict LPProblem.to_dict
  rw [from_dict_foldl]
  refine ⟨rfl, rfl, ?_⟩
  rw [List.map_map, List.nil_append]
  have h : ∀ c : Constraint, c ∈ p.constraints →
      ((fun cd : ConstraintDict =>
          (⟨cd.a1, cd.a2, cd.b, typeOfGlyph cd.type⟩ : Constraint)) ∘
        (fun c : Constraint =>
          (⟨c.a1, c.a2, c.b, c.constraint_type.value⟩ : ConstraintDict))) c
        = id c := by
    intro c _
    simp [typeOfGlyph_value]
  exact (List.map_congr_left h).trans (List.map_id _)

/-! ## Corner-point enumeration -/

/-- The inner loop of `find_corner_points` appends exactly the
`filterMap` of the solver over the scanned indices. -/
lemma inner_foldl_eq {α : Type} (f : ℕ → Option α) (l : List ℕ)
    (acc : List α) :
    l.foldl (fun acc2 j => append_opt acc2 (f j)) acc =
      acc ++ l.filterMap f := by
  induction l generalizing acc with
  | nil => simp
  | cons j t ih =>
    have hnone : ∀ a : List α, append_opt a (none : Option α) = a :=
      fun a => rfl
    have hsome : ∀ (a : List α) (pt : α), append_opt a (some pt) = a ++ [pt] :=
      fun a pt => rfl
    cases h : f j <;>
      simp only [List.foldl_cons, h, hnone, hsome] <;>
      rw [ih] <;>
      simp [List.filterMap_cons, h]

/-- The outer loop of `find_corner_points` flat-maps the inner loop's
block over the scanned `i` indices. -/
lemma outer_foldl_eq (p : LPProblem) (L : List ℕ) (acc : List CornerPoint) :
    L.foldl
      (fun a i =>
        (List.range' (i + 1) (p.constraints.length - (i + 1))).foldl
          (fun acc2 j => append_opt acc2 (pair_point p i j)) a) acc =
      acc ++
        L.flatMap fun i =>
          (List.range' (i + 1) (p.constraints.length - (i + 1))).filterMap
            fun j => pair_point p i j := by
  induction L generalizing acc with
  | nil => simp
  | cons i t ih =>
    simp only [List.foldl_cons]
    rw [inner_foldl_eq (pair_point p i), ih]
    simp [List.flatMap_cons, List.append_assoc]

/-- `filterMap` distributes over `flatMap`. -/
lemma filterMap_flatMap_eq {α β : Type} (L : List ℕ) (g : ℕ → List α)
    (f : α → Option β) :
    (L.flatMap g).filterMap f = L.flatMap fun i => (g i).filterMap f := by
  induction L with
  | nil => simp
  | cons i t ih => simp [List.flatMap_cons, List.filterMap_append, ih]

/-- The double loop of the source equals the spec-level description:
filter-map the pair solver over the lexicographically ordered pairs. -/
lemma find_corner_points_list_eq (p : LPProblem) :
    find_corner_points_list p = corner_points_spec p := by
  simp only [find_corner_points_list]
  rw [outer_foldl_eq, List.nil_append]
  simp only [corner_points_spec, lexPairs]
  rw [filterMap_flatMap_eq]
  have h :
      (fun i =>
        ((List.range' (i + 1) (p.constraints.length - (i + 1))).map
            fun j => (i, j)).filterMap
          fun ij : ℕ × ℕ => pair_point p ij.1 ij.2) =
      fun i =>
        (List.range' (i + 1) (p.constraints.length - (i + 1))).filterMap
          fun j => pair_point p i j := by
    funext i
    rw [List.filterMap_map]
    rfl
  rw [h]

/-- C1: `find_corner_points` enumerates the pairs `(i, j)`, `i < j`, in
increasing lexicographic order, keeps the intersection `(x1, x2, [i, j])`
exactly when the 2×2 system passes the determinant guard (the code's
unique-solution test) and `is_feasible` holds over the full constraint
set, returns them in enumeration order without deduplication, and
overwrites the cached corner-point sequence with exactly the returned
sequence. -/
theorem find_corner_points_enumeration (p : LPProblem) :
    p.find_corner_points =
      (corner_points_spec p,
       { p with corner_points := corner_points_spec p }) ∧
    p.find_corner_points.2.corner_points = p.find_corner_points.1 ∧
    (∀ i j x1 x2,
      pair_point p i j = some (x1, x2, [i, j]) ↔
        (¬ratAbs
            (det2 (p.constraints.getD i dfltConstraint)
              (p.constraints.getD j dfltConstraint)) < tol ∧
          (x1, x2) =
            solve2 (p.constraints.getD i dfltConstraint)
              (p.constraints.getD j dfltConstraint) ∧
          p.is_feasible x1 x2 = true)) := by
  have h1 : p.find_corner_points =
      (corner_points_spec p,
       { p with corner_points := corner_points_spec p }) := by
    simp only [LPProblem.find_corner_points]
    rw [find_corner_points_list_eq]
  refine ⟨h1, by rw [h1], ?_⟩
  intro i j x1 x2
  simp only [pair_point]
  set ci := p.constraints.getD i dfltConstraint with hci
  set cj := p.constraints.getD j dfltConstraint with hcj
  by_cases hd : ratAbs (det2 ci cj) < tol
  · rw [if_pos hd]
    simp [hd]
  · rw [if_neg hd]
    by_cases hf : p.is_feasible (solve2 ci cj).1 (solve2 ci cj).2 = true
    · rw [if_pos hf]
      constructor
      · intro h
        have h2 := Option.some.inj h
        simp only [Prod.mk.injEq] at h2
        obtain ⟨hx1, hx2, -⟩ := h2
        refine ⟨hd, ?_, ?_⟩
        · rw [← hx1, ← hx2]
        · rw [← hx1, ← hx2]
          exact hf
      · rintro ⟨-, hs, hfeas⟩
        have hs1 : x1 = (solve2 ci cj).1 := by rw [← hs]
        have hs2 : x2 = (solve2 ci cj).2 := by rw [← hs]
        rw [hs1, hs2]
    · rw [if_neg hf]
      constructor
      · intro h
        exact absurd h (by simp)
      · rintro ⟨-, hs, hfeas⟩
        have hs1 : x1 = (solve2 ci cj).1 := by rw [← hs]
        have hs2 : x2 = (solve2 ci cj).2 := by rw [← hs]
        rw [hs1, hs2] at hfeas
        exact absurd hfeas hf

/-- The returned corner-point list is the spec-level filter-map. -/
lemma find_corner_points_fst (p : LPProblem) :
    p.find_corner_points.1 = corner_points_spec p := by
  simp only [LPProblem.find_corner_points]
  exact find_corner_points_list_eq p

/-- A kept pair passed the determinant guard and is tagged `[i, j]`. -/
lemma pair_point_some_struct (p : LPProblem) (i j : ℕ) (pt : CornerPoint)
    (h : pair_point p i j = some pt) :
    ¬ratAbs
        (det2 (p.constraints.getD i dfltConstraint)
          (p.constraints.getD j dfltConstraint)) < tol ∧
      pt.2.2 = [i, j] := by
  simp only [pair_point] at h
  by_cases hd :
      ratAbs
        (det2 (p.constraints.getD i dfltConstraint)
          (p.constraints.getD j dfltConstraint)) < tol
  · rw [if_pos hd] at h
    exact absurd h (by simp)
  · refine ⟨hd, ?_⟩
    rw [if_neg hd] at h
    by_cases hf :
        p.is_feasible
          (solve2 (p.constraints.getD i dfltConstraint)
            (p.constraints.getD j dfltConstraint)).1
          (solve2 (p.constraints.getD i dfltConstraint)
            (p.constraints.getD j dfltConstraint)).2 = true
    · rw [if_pos hf] at h
      rw [← Option.some.inj h]
    · rw [if_neg hf] at h
      exact absurd h (by simp)

/-- C4: every corner point returned by `find_corner_points` comes from a
pair whose determinant has magnitude at least `1e-10` (hence nonzero, so
the solve's failure branch is unreachable), and a pair of constraints
with proportional coefficient vectors (zero cross product, i.e. parallel
or coincident boundary lines) never appears as a contributing-index
list, regardless of the right-hand sides. -/
theorem parallel_pairs_never_contribute (p : LPProblem) :
    (∀ pt ∈ p.find_corner_points.1, ∀ i j, pt.2.2 = [i, j] →
      tol ≤
          ratAbs
            (det2 (p.constraints.getD i dfltConstraint)
              (p.constraints.getD j dfltConstraint)) ∧
        det2 (p.constraints.getD i dfltConstraint)
            (p.constraints.getD j dfltConstraint) ≠ 0) ∧
    (∀ i j,
      det2 (p.constraints.getD i dfltConstraint)
          (p.constraints.getD j dfltConstraint) = 0 →
      ∀ pt ∈ p.find_corner_points.1, pt.2.2 ≠ [i, j]) := by
  have key : ∀ pt ∈ p.find_corner_points.1, ∀ i j, pt.2.2 = [i, j] →
      tol ≤
        ratAbs
          (det2 (p.constraints.getD i dfltConstraint)
            (p.constraints.getD j dfltConstraint)) ∧
      det2 (p.constraints.getD i dfltConstraint)
          (p.constraints.getD j dfltConstraint) ≠ 0 := by
    intro pt hmem i j hij
    rw [find_corner_points_fst] at hmem
    simp only [corner_points_spec, List.mem_filterMap] at hmem
    obtain ⟨ij, -, hsome⟩ := hmem
    obtain ⟨hguard, htag⟩ := pair_point_some_struct p ij.1 ij.2 pt hsome
    rw [hij] at htag
    simp only [List.cons.injEq, and_true] at htag
    obtain ⟨h1, h2⟩ := htag
    rw [← h1, ← h2] at hguard
    refine ⟨not_lt.mp hguard, ?_⟩
    intro h0
    rw [h0] at hguard
    exact hguard (by norm_num [ratAbs, tol])
  refine ⟨key, ?_⟩
  intro i j hdet pt hmem hij
  exact (key pt hmem i j hij).2 hdet

/-- Witness for C4: the single corner of the `x1 ≤ 1`, `x2 ≤ 1` problem
passes the guard, and the parallel pair `(0, 2)` of the box problem
(both constraints on `x1`) contributes to no returned point. -/
theorem parallel_pairs_never_contribute_witness :
    tol ≤
      ratAbs
        (det2 (miniProblem.constraints.getD 0 dfltConstraint)
          (miniProblem.constraints.getD 1 dfltConstraint)) ∧
    det2 (boxProblem.constraints.getD 0 dfltConstraint)
        (boxProblem.constraints.getD 2 dfltConstraint) = 0 ∧
    ∀ pt ∈ boxProblem.find_corner_points.1, pt.2.2 ≠ [0, 2] := by
  have hmem : ((1 : ℚ), (1 : ℚ), ([0, 1] : List ℕ)) ∈
      miniProblem.find_corner_points.1 := by
    rw [find_corner_points_fst]
    have hlex : lexPairs 2 = [(0, 1)] := by decide
    simp only [corner_points_spec, miniProblem]
    norm_num [hlex, pair_point, det2, solve2, LPProblem.is_feasible,
      Constraint.is_satisfied, tol, ratAbs, dfltConstraint,
      List.filterMap_cons, List.getD]
  have hdet0 :
      det2 (boxProblem.constraints.getD 0 dfltConstraint)
        (boxProblem.constraints.getD 2 dfltConstraint) = 0 := by
    norm_num [boxProblem, det2, List.getD, dfltConstraint]
  exact
    ⟨((parallel_pairs_never_contribute miniProblem).1 _ hmem 0 1 rfl).1,
     hdet0,
     (parallel_pairs_never_contribute boxProblem).2 0 2 hdet0⟩

/-- C3: on the box problem (`x1<=4`, `x2<=4`, `x1>=0`, `x2>=0`, objective
`max 2x1+3x2`) the corner points are exactly `(0,0)`, `(4,0)`, `(4,4)`,
`(0,4)`, listed in the order fixed by the lexicographic pair-enumeration
rule (`(4,4)` from pair `[0,1]` first), and the optimal solution is
`(4, 4)` with objective value `20`. -/
theorem box_problem_solution :
    boxProblem.find_corner_points.1 =
      [(4, 4, [0, 1]), (4, 0, [0, 3]), (0, 4, [1, 2]), (0, 0, [2, 3])] ∧
    (∀ q : ℚ × ℚ,
      q ∈ boxProblem.find_corner_points.1.map (fun pt => (pt.1, pt.2.1)) ↔
        q ∈ [((0 : ℚ), (0 : ℚ)), (4, 0), (4, 4), (0, 4)]) ∧
    (find_optimal_solution boxProblem).1 = some (4, 4, 20, [0, 1]) := by
  have h1 : find_corner_points_list boxProblem =
      [(4, 4, [0, 1]), (4, 0, [0, 3]), (0, 4, [1, 2]), (0, 0, [2, 3])] := by
    have hlex : lexPairs 4 = [(0, 1), (0, 2), (0, 3), (1, 2), (1, 3), (2, 3)] :=
      by decide
    rw [find_corner_points_list_eq]
    simp only [corner_points_spec]
    norm_num [boxProblem, hlex, pair_point, det2, solve2, LPProblem.is_feasible,
      Constraint.is_satisfied, tol, ratAbs, dfltConstraint, List.filterMap_cons,
      List.getD]
  have h2 : boxProblem.find_corner_points.1 =
      [(4, 4, [0, 1]), (4, 0, [0, 3]), (0, 4, [1, 2]), (0, 0, [2, 3])] := by
    simp only [LPProblem.find_corner_points]
    exact h1
  refine ⟨h2, ?_, ?_⟩
  · intro q
    rw [h2]
    simp only [List.map_cons, List.map_nil, List.mem_cons, List.not_mem_nil,
      or_false]
    tauto
  · simp only [find_optimal_solution]
    rw [h2]
    norm_num [python_max, List.foldl_cons, List.foldl_nil,
      LPProblem.objective_value, boxProblem]

/-! ## Optimal solution selection -/

/-- One step of Python's `max` fold. -/
lemma python_max_cons (obj : CornerPoint → ℚ) (c q : CornerPoint)
    (t : List CornerPoint) :
    python_max obj c (q :: t) =
      python_max obj (if obj q > obj c then q else c) t := rfl

/-- The element Python's `max` keeps has the largest key of the list. -/
lemma python_max_le (obj : CornerPoint → ℚ) :
    ∀ (l : List CornerPoint) (c : CornerPoint),
      ∀ pt ∈ c :: l, obj pt ≤ obj (python_max obj c l) := by
  intro l
  induction l with
  | nil =>
    intro c pt hpt
    rw [List.mem_singleton] at hpt
    rw [hpt]
    exact le_refl _
  | cons q t ih =>
    intro c pt hpt
    rw [python_max_cons]
    have hub : ∀ r ∈ (if obj q > obj c then q else c) :: t,
        obj r ≤ obj (python_max obj (if obj q > obj c then q else c) t) :=
      ih (if obj q > obj c then q else c)
    have hhead :
        obj (if obj q > obj c then q else c) ≤
          obj (python_max obj (if obj q > obj c then q else c) t) :=
      hub _ (List.mem_cons_self _ _)
    rcases List.mem_cons.mp hpt with hc | hqt
    · refine le_trans ?_ hhead
      rw [hc]
      by_cases h : obj q > obj c
      · rw [if_pos h]
        exact le_of_lt h
      · rw [if_neg h]
    · rcases List.mem_cons.mp hqt with hq | ht
      · refine le_trans ?_ hhead
        rw [hq]
        by_cases h : obj q > obj c
        · rw [if_pos h]
        · rw [if_neg h]
          exact not_lt.mp h
      · exact hub pt (List.mem_cons_of_mem _ ht)

/-- Python's `max` keeps the FIRST element attaining the maximum: it sits
at some position `k` and everything strictly before `k` has a strictly
smaller key. -/
lemma python_max_first (obj : CornerPoint → ℚ) :
    ∀ (l : List CornerPoint) (c : CornerPoint),
      ∃ k, (c :: l).get? k = some (python_max obj c l) ∧
        ∀ pt ∈ (c :: l).take k, obj pt < obj (python_max obj c l) := by
  intro l
  induction l with
  | nil =>
    intro c
    exact ⟨0, rfl, by simp⟩
  | cons q t ih =>
    intro c
    rw [python_max_cons]
    by_cases h : obj q > obj c
    · rw [if_pos h]
      obtain ⟨k, hk1, hk2⟩ := ih q
      refine ⟨k + 1, by simpa using hk1, ?_⟩
      intro pt hpt
      rw [List.take_succ_cons] at hpt
      rcases List.mem_cons.mp hpt with hc | ht
      · rw [hc]
        calc obj c < obj q := h
          _ ≤ obj (python_max obj q t) :=
            python_max_le obj t q q (List.mem_cons_self _ _)
      · exact hk2 pt ht
    · rw [if_neg h]
      obtain ⟨k, hk1, hk2⟩ := ih c
      cases k with
      | zero =>
        refine ⟨0, by simpa using hk1, by simp⟩
      | succ m =>
        have hcm : obj c < obj (python_max obj c t) :=
          hk2 c (by simp [List.take_succ_cons])
        refine ⟨m + 2, by simpa using hk1, ?_⟩
        intro pt hpt
        rw [List.take_succ_cons, List.take_succ_cons] at hpt
        rcases List.mem_cons.mp hpt with hc | hrest
        · rw [hc]
          exact hcm
        · rcases List.mem_cons.mp hrest with hq | ht
          · rw [hq]
            exact lt_of_le_of_lt (not_lt.mp h) hcm
          · exact hk2 pt
              (by rw [List.take_succ_cons]; exact List.mem_cons_of_mem _ ht)

/-- C2: `find_optimal_solution` returns `None` exactly when there are no
corner points (a normal outcome, not an exception — the model is a total
function), and otherwise returns `(x1, x2, value, indices)` where
`(x1, x2, indices)` is the first corner point, in enumeration order,
attaining the maximal objective value, and `value` is its objective
value. -/
theorem find_optimal_solution_spec (p : LPProblem) :
    ((find_optimal_solution p).1 = none ↔ p.find_corner_points.1 = []) ∧
    (∀ x1 x2 v idx,
      (find_optimal_solution p).1 = some (x1, x2, v, idx) →
        v = p.objective_value x1 x2 ∧
        ∃ k, p.find_corner_points.1.get? k = some (x1, x2, idx) ∧
          (∀ pt ∈ p.find_corner_points.1.take k,
            p.objective_value pt.1 pt.2.1 < v) ∧
          ∀ pt ∈ p.find_corner_points.1,
            p.objective_value pt.1 pt.2.1 ≤ v) := by
  simp only [find_optimal_solution]
  cases hc : p.find_corner_points.1 with
  | nil =>
    constructor
    · simp
    · intro x1 x2 v idx h
      exact absurd h (by simp)
  | cons c rest =>
    constructor
    · simp
    · intro x1 x2 v idx h
      simp only [Option.some.injEq, Prod.mk.injEq] at h
      obtain ⟨hx1, hx2, hv, hidx⟩ := h
      have hbest :
          (x1, x2, idx) =
            python_max (fun q => p.objective_value q.1 q.2.1) c rest := by
        rw [← hx1, ← hx2, ← hidx]
      constructor
      · rw [← hv, ← hx1, ← hx2]
      · obtain ⟨k, hk1, hk2⟩ :=
          python_max_first (fun q => p.objective_value q.1 q.2.1) rest c
        refine ⟨k, ?_, ?_, ?_⟩
        · rw [hbest]
          exact hk1
        · intro pt hpt
          rw [← hv]
          exact hk2 pt hpt
        · intro pt hpt
          rw [← hv]
          exact python_max_le (fun q => p.objective_value q.1 q.2.1)
            rest c pt hpt

/-- Witness for C2 at the `x1 ≤ 1`, `x2 ≤ 1` problem: its single corner
`(1, 1)` is returned with objective value `2`. -/
theorem find_optimal_solution_spec_witness :
    (find_optimal_solution miniProblem).1 = some (1, 1, 2, [0, 1]) ∧
    ((2 : ℚ) = miniProblem.objective_value 1 1 ∧
      ∃ k, miniProblem.find_corner_points.1.get? k = some (1, 1, [0, 1]) ∧
        (∀ pt ∈ miniProblem.find_corner_points.1.take k,
          miniProblem.objective_value pt.1 pt.2.1 < 2) ∧
        ∀ pt ∈ miniProblem.find_corner_points.1,
          miniProblem.objective_value pt.1 pt.2.1 ≤ 2) := by
  have hl : miniProblem.find_corner_points.1 = [(1, 1, [0, 1])] := by
    rw [find_corner_points_fst]
    have hlex : lexPairs 2 = [(0, 1)] := by decide
    simp only [corner_points_spec, miniProblem]
    norm_num [hlex, pair_point, det2, solve2, LPProblem.is_feasible,
      Constraint.is_satisfied, tol, ratAbs, dfltConstraint,
      List.filterMap_cons, List.getD]
  have hEval :
      (find_optimal_solution miniProblem).1 = some (1, 1, 2, [0, 1]) := by
    simp only [find_optimal_solution]
    rw [hl]
    norm_num [python_max, miniProblem, LPProblem.objective_value]
  exact ⟨hEval, (find_optimal_solution_spec miniProblem).2 1 1 2 [0, 1] hEval⟩

/-! ## Constraint removal -/

/-- C8: `remove_constraint index` removes exactly the constraint at
position `index` (all others keep their relative order, and the rest of
the Problem state is untouched) when `0 <= index < count`, and is a
silent no-op, leaving the Problem entirely unchanged, for every other
integer index. -/
theorem remove_constraint_spec (p : LPProblem) (index : ℤ) :
    (0 ≤ index → index < p.constraints.length →
      p.remove_constraint index =
        { p with
          constraints :=
            p.constraints.take index.toNat ++
              p.constraints.drop (index.toNat + 1) }) ∧
    (¬(0 ≤ index ∧ index < p.constraints.length) →
      p.remove_constraint index = p) := by
  constructor
  · intro h1 h2
    unfold LPProblem.remove_constraint
    rw [if_pos ⟨h1, h2⟩, List.eraseIdx_eq_take_drop_succ]
  · intro h
    unfold LPProblem.remove_constraint
    rw [if_neg h]

/-- Witness for C8 at the box problem: index 1 removes the second
constraint; indices 9 and -1 are no-ops. -/
theorem remove_constraint_spec_witness :
    boxProblem.remove_constraint 1 =
      { boxProblem with
        constraints :=
          boxProblem.constraints.take 1 ++ boxProblem.constraints.drop 2 } ∧
    boxProblem.remove_constraint 9 = boxProblem ∧
    boxProblem.remove_constraint (-1) = boxProblem :=
  ⟨(remove_constraint_spec boxProblem 1).1 (by decide) (by decide),
   (remove_constraint_spec boxProblem 9).2 (by decide),
   (remove_constraint_spec boxProblem (-1)).2 (by decide)⟩

/-! ## Glyph decoding on load -/

/-- C9: `from_dict` maps every kind string other than the `≤` and `=`
glyphs — including strings that are not the `≥` glyph — to
`GREATER_EQUAL`, so the decoding is total and not a strict 1:1 mapping
over the three fixed glyphs. -/
theorem from_dict_unknown_glyph (c1 c2 : ℚ) (d : ConstraintDict)
    (h1 : d.type ≠ "≤") (h2 : d.type ≠ "=") :
    typeOfGlyph d.type = GREATER_EQUAL ∧
    (LPProblem.from_dict ⟨c1, c2, [d]⟩).constraints =
      [⟨d.a1, d.a2, d.b, GREATER_EQUAL⟩] ∧
    ("weird" ≠ ConstraintType.value GREATER_EQUAL ∧
      typeOfGlyph "weird" = GREATER_EQUAL) := by
  have ht : typeOfGlyph d.type = GREATER_EQUAL := by
    unfold typeOfGlyph
    rw [if_neg h1, if_neg h2]
  refine ⟨ht, ?_, by decide⟩
  simp [LPProblem.from_dict, LPProblem.add_constraint, ht]

/-- Witness for C9 at the concrete unknown glyph string `"weird"`. -/
theorem from_dict_unknown_glyph_witness :
    typeOfGlyph "weird" = GREATER_EQUAL ∧
    (LPProblem.from_dict ⟨0, 0, [⟨1, 2, 3, "weird"⟩]⟩).constraints =
      [⟨1, 2, 3, GREATER_EQUAL⟩] := by
  have h := from_dict_unknown_glyph 0 0 ⟨1, 2, 3, "weird"⟩ (by decide) (by decide)
  exact ⟨h.1, h.2.1⟩

/-! ## `is_bounded` ignores equality constraints -/

/-- An equality constraint leaves the four bound flags unchanged. -/
lemma bound_step_of_equal (s : Bool × Bool × Bool × Bool) (c : Constraint)
    (h : c.constraint_type = EQUAL) : bound_step s c = s := by
  simp [bound_step, x1_block, x2_block, h]

/-- C10: `is_bounded` never counts an equality constraint as a bound: an
EQ constraint contributes no flag, appending an EQ constraint never
changes the verdict, and a problem confined only by axis equalities
(`x1 = 5`, `x2 = 3`) is reported as unbounded. -/
theorem is_bounded_ignores_equalities :
    (∀ c : Constraint, c.constraint_type = EQUAL →
      x1_lower_flag c = false ∧ x1_upper_flag c = false ∧
      x2_lower_flag c = false ∧ x2_upper_flag c = false) ∧
    (∀ (p : LPProblem) (c : Constraint), c.constraint_type = EQUAL →
      is_bounded { p with constraints := p.constraints ++ [c] } =
        is_bounded p) ∧
    is_bounded eqOnlyProblem = false := by
  refine ⟨?_, ?_, ?_⟩
  case refine_3 =>
    norm_num [is_bounded, eqOnlyProblem, bound_step, x1_block, x2_block,
      ratAbs, tol, List.foldl_cons, List.foldl_nil]
    decide
  · intro c h
    refine ⟨?_, ?_, ?_, ?_⟩ <;>
      simp [x1_lower_flag, x1_upper_flag, x2_lower_flag, x2_upper_flag, h]
  · intro p c h
    simp [is_bounded, List.foldl_append, List.foldl_cons, List.foldl_nil,
      bound_step_of_equal _ _ h]

/-- The `x1` block ORs the constraint's two `x1` flags into the state. -/
lemma x1_block_eq (s : Bool × Bool × Bool × Bool) (c : Constraint) :
    x1_block s c =
      (s.1 || x1_lower_flag c, s.2.1 || x1_upper_flag c,
       s.2.2.1, s.2.2.2) := by
  obtain ⟨a, b, u, v⟩ := s
  cases hk : c.constraint_type <;>
    by_cases h1 : ratAbs c.a2 < tol <;>
    by_cases h2 : c.a1 > 0 <;>
    by_cases h3 : c.a1 < 0 <;>
    first
      | (exfalso; linarith)
      | simp [x1_block, x1_lower_flag, x1_upper_flag, hk, h1, h2, h3]

/-- The `x2` block ORs the constraint's two `x2` flags into the state. -/
lemma x2_block_eq (s : Bool × Bool × Bool × Bool) (c : Constraint) :
    x2_block s c =
      (s.1, s.2.1, s.2.2.1 || x2_lower_flag c, s.2.2.2 || x2_upper_flag c) := by
  obtain ⟨a, b, u, v⟩ := s
  cases hk : c.constraint_type <;>
    by_cases h4 : ratAbs c.a1 < tol <;>
    by_cases h5 : c.a2 > 0 <;>
    by_cases h6 : c.a2 < 0 <;>
    first
      | (exfalso; linarith)
      | simp [x2_block, x2_lower_flag, x2_upper_flag, hk, h4, h5, h6]

/-- One `is_bounded` loop iteration ORs the constraint's four flags into
the accumulated state. -/
lemma bound_step_eq (s : Bool × Bool × Bool × Bool) (c : Constraint) :
    bound_step s c =
      (s.1 || x1_lower_flag c, s.2.1 || x1_upper_flag c,
       s.2.2.1 || x2_lower_flag c, s.2.2.2 || x2_upper_flag c) := by
  rw [bound_step, x1_block_eq, x2_block_eq]

/-- The `is_bounded` fold computes, per component, an OR of the
corresponding flag over the scanned constraints. -/
lemma foldl_bound_step (l : List Constraint) (s : Bool × Bool × Bool × Bool) :
    l.foldl bound_step s =
      (s.1 || l.any x1_lower_flag, s.2.1 || l.any x1_upper_flag,
       s.2.2.1 || l.any x2_lower_flag, s.2.2.2 || l.any x2_upper_flag) := by
  induction l generalizing s with
  | nil => simp
  | cons c l ih =>
    rw [List.foldl_cons, bound_step_eq, ih]
    simp [Bool.or_assoc]

/-- C5: `is_bounded` is exactly the axis-aligned scan: it is true iff
each axis gets at least one lower and one upper bound from a constraint
whose other coefficient has magnitude below `1e-10`, classified by the
sign/kind table; in particular the triangular region is reported
unbounded and the box region bounded. -/
theorem is_bounded_iff_axis_bounds :
    (∀ p : LPProblem, is_bounded p = is_bounded_spec p) ∧
    is_bounded triProblem = false ∧
    is_bounded boxProblem = true := by
  have h : ∀ p : LPProblem, is_bounded p = is_bounded_spec p := by
    intro p
    simp [is_bounded, is_bounded_spec, foldl_bound_step]
  refine ⟨h, ?_, ?_⟩
  · rw [h]
    norm_num [is_bounded_spec, triProblem, x1_lower_flag, x1_upper_flag,
      x2_lower_flag, x2_upper_flag, ratAbs, tol]
  · rw [h]
    norm_num [is_bounded_spec, boxProblem, x1_lower_flag, x1_upper_flag,
      x2_lower_flag, x2_upper_flag, ratAbs, tol]

/-- Witness for C10 at the concrete constraint `x1 = 5`. -/
theorem is_bounded_ignores_equalities_witness :
    x1_lower_flag ⟨1, 0, 5, EQUAL⟩ = false ∧
    is_bounded
        { boxProblem with
          constraints := boxProblem.constraints ++ [⟨1, 0, 5, EQUAL⟩] } =
      is_bounded boxProblem :=
  ⟨(is_bounded_ignores_equalities.1 ⟨1, 0, 5, EQUAL⟩ rfl).1,
   is_bounded_ignores_equalities.2.1 boxProblem ⟨1, 0, 5, EQUAL⟩ rfl⟩

/-! ## Gradient-direction stepping -/

/-- C6: when the gradient's Euclidean norm is below `1e-10`,
`move_in_gradient_direction` returns the input point unchanged (a total
function, no error); otherwise it moves by `step` along the unit
(anti)gradient; and a zero step always returns the input point. -/
theorem move_in_gradient_direction_spec (p : LPProblem)
    (x1 x2 step : ℝ) (anti_gradient : Bool) :
    (gradNorm p anti_gradient < (tol : ℚ) →
      p.move_in_gradient_direction x1 x2 step anti_gradient = (x1, x2)) ∧
    (¬gradNorm p anti_gradient < (tol : ℚ) →
      p.move_in_gradient_direction x1 x2 step anti_gradient =
        (x1 + step * (gradComp p.c1 anti_gradient / gradNorm p anti_gradient),
         x2 +
           step * (gradComp p.c2 anti_gradient / gradNorm p anti_gradient))) ∧
    p.move_in_gradient_direction x1 x2 0 anti_gradient = (x1, x2) := by
  refine ⟨?_, ?_, ?_⟩
  · intro h
    simp only [LPProblem.move_in_gradient_direction]
    rw [if_pos h]
  · intro h
    simp only [LPProblem.move_in_gradient_direction]
    rw [if_neg h]
  · simp only [LPProblem.move_in_gradient_direction]
    split_ifs with h
    · rfl
    · norm_num

/-- Witness for C6: the zero gradient leaves `(1, 2)` in place, and the
unit gradient `(1, 0)` moves `(1, 2)` by the normalized step. -/
theorem move_in_gradient_direction_spec_witness :
    (gradNorm zeroGradProblem false < (tol : ℚ) ∧
      zeroGradProblem.move_in_gradient_direction 1 2 5 false = (1, 2)) ∧
    (¬gradNorm unitGradProblem false < (tol : ℚ) ∧
      unitGradProblem.move_in_gradient_direction 1 2 5 false =
        (1 + 5 * (gradComp unitGradProblem.c1 false /
            gradNorm unitGradProblem false),
         2 + 5 * (gradComp unitGradProblem.c2 false /
            gradNorm unitGradProblem false))) := by
  have htol : ((tol : ℚ) : ℝ) = 1 / 10000000000 := by
    norm_num [tol]
  have h0 : gradNorm zeroGradProblem false < (tol : ℚ) := by
    have : gradNorm zeroGradProblem false = 0 := by
      simp [gradNorm, gradComp, zeroGradProblem]
    rw [this, htol]
    norm_num
  have h1 : ¬gradNorm unitGradProblem false < (tol : ℚ) := by
    have : gradNorm unitGradProblem false = 1 := by
      simp [gradNorm, gradComp, unitGradProblem]
    rw [this, htol]
    norm_num
  exact
    ⟨⟨h0, (move_in_gradient_direction_spec zeroGradProblem 1 2 5 false).1 h0⟩,
     ⟨h1,
      (move_in_gradient_direction_spec unitGradProblem 1 2 5 false).2.1 h1⟩⟩

end LPSolver
